import Mathlib

set_option maxHeartbeats 1000000

/-! Verification development for the module scraper `scrape_module.py`
(signature resolver, value classifier, traversal orchestrator).

The Python source is embedded shallowly: pure string manipulation is
translated directly; introspection results obtained from the live runtime
(`inspect.signature`, `inspect.getfullargspec`, `ast.parse`, `getattr`,
`dir`) are passed in as explicit oracle parameters, so every definition
is an executable function of its inputs.  Python truthiness on strings
(`None` and the empty string are falsy) is modelled by `Option String`
together with `truthyO`.  The development targets the Python 3 reading of
the source (the `sys.version_info[0] == 2` branches are not modelled). -/

/-- Python truthiness of an optional string: absent (`None`) and the empty
string are falsy, every other string is truthy. -/
def truthyO : Option String → Bool
  | some s => s ≠ ""
  | none => false

/-- Python `dict.get`: the value bound to the key, if present. -/
def dictGet {α : Type} (tbl : List (String × α)) (k : String) : Option α :=
  (tbl.find? (fun p => p.1 == k)).map (fun p => p.2)

/-! ## Signature.__init__, lines 235-238: implicit binding argument -/

/-- Line 236: the implicit binding argument is `cls` for a classmethod and
`self` otherwise. -/
def bindingArg (decorators : List String) : String :=
  if "@classmethod" ∈ decorators then "cls" else "self"

/-- Lines 235-238 of `Signature.__init__`: when a scope is given and the
callable is not a staticmethod, the binding argument is prepended to the
defaults unless it is already the first element. -/
def init_defaults (scope : Option String) (decorators : List String)
    (defaults : List String) : List String :=
  if truthyO scope ∧ "@staticmethod" ∉ decorators then
    let defArg := bindingArg decorators
    if defaults = [] ∨ defaults.head? ≠ some defArg then defArg :: defaults
    else defaults
  else defaults

/-! ## Signature._insert_default_arguments, lines 381-390 -/

/-- The mismatch test of lines 385-388: a pair is a mismatch when the
names differ, except that implicit `cls` against inferred `type` counts
as a match. -/
def defaultMismatch (x y : String) : Bool :=
  !(x == "cls" && y == "type") && x != y

/-- Index of the first mismatching pair of `zip defaults args`, if any
(the loop of lines 385-390 breaks at this index). -/
def firstMismatchIdx : List String → List String → Option Nat
  | x :: ds, y :: bs =>
      if defaultMismatch x y then some 0
      else (firstMismatchIdx ds bs).map (fun n => n + 1)
  | _, _ => none

/-- `Signature._insert_default_arguments` (lines 381-390), returning the
new contents of `args`: a shorter inferred list gets the defaults
prepended wholesale (`args[:0] = defaults`); otherwise the prefix of
`args` before the first mismatch is replaced by the whole defaults list
(`args[:i] = defaults`). -/
def insert_default_arguments (args defaults : List String) : List String :=
  if args.length < defaults.length then defaults ++ args
  else
    match firstMismatchIdx defaults args with
    | some i => defaults ++ args.drop i
    | none => args

/-! ## Knowledge base lookups (Signature._init_argspec_fromknown,
Signature._init_restype_fromknown, lines 318-344) -/

/-- A value of the `KNOWN_RESTYPES` dictionary: a plain string or a list
of alternative return expressions. -/
inductive KVal : Type where
  | s (v : String) : KVal
  | l (vs : List String) : KVal
deriving DecidableEq

/-- Python truthiness of a `KNOWN_RESTYPES` value. -/
def KVal.truthy : KVal → Bool
  | .s v => v ≠ ""
  | .l vs => vs ≠ []

/-- One guarded lookup step of lines 320-325 / 333-338: when the guard is
truthy and the current value is falsy, the variable is overwritten by the
dictionary lookup (which may itself miss). -/
def knownStep {α : Type} (truthy : α → Bool) (cur : Option α) (doLookup : Bool)
    (tbl : List (String × α)) (key : String) : Option α :=
  if doLookup && !(match cur with | some v => truthy v | none => false) then
    dictGet tbl key
  else cur

/-- The shared lookup cascade of `_init_argspec_fromknown` and
`_init_restype_fromknown`: alias-qualified key, then scope-qualified key,
then the bare name; a final falsy value means no result. -/
def known_lookup {α : Type} (truthy : α → Bool) (tbl : List (String × α))
    (name : String) (scope aliasO : Option String) : Option α :=
  let s1 := knownStep truthy none (truthyO aliasO) tbl ((aliasO.getD "") ++ "." ++ name)
  let s2 := knownStep truthy s1 (truthyO scope) tbl ((scope.getD "") ++ "." ++ name)
  let s3 := knownStep truthy s2 true tbl name
  match s3 with
  | some v => if truthy v then some v else none
  | none => none

/-- `Signature._init_argspec_fromknown` (lines 318-329). -/
def init_argspec_fromknown (tbl : List (String × String)) (name : String)
    (scope aliasO : Option String) : Option String :=
  (known_lookup (fun v => v ≠ "") tbl name scope aliasO).map (fun sp => name ++ sp)

/-- `Signature._init_restype_fromknown` (lines 331-344): the matched value
is rendered with a `return ` prefix; a list value is joined with
`; return `. -/
def init_restype_fromknown (tbl : List (String × KVal)) (name : String)
    (scope aliasO : Option String) : Option String :=
  (known_lookup KVal.truthy tbl name scope aliasO).map (fun r =>
    match r with
    | .s v => "return " ++ v
    | .l vs => "return " ++ String.intercalate "; return " vs)

/-- The characterization used to settle the precedence claim: the first
lookup in order whose stored value is truthy, skipping lookups whose
guard is falsy. -/
def firstTruthyLookup {α : Type} (truthy : α → Bool)
    (cands : List (Option α)) : Option α :=
  cands.findSome? (fun o => o.bind (fun v => if truthy v then some v else none))

/-! ## The KNOWN_RESTYPES and KNOWN_ARGSPECS tables (lines 102-216),
Python 3 base contents (before `add_builtin_objects`). -/

/-- `Signature.KNOWN_RESTYPES` (lines 102-190). -/
def KNOWN_RESTYPES : List (String × KVal) := [
  ("__abs__", .s "__T()"),
  ("__add__", .s "__T()"),
  ("__and__", .s "__T()"),
  ("__annotations__", .s "\x7b\x7d"),
  ("__base__", .s "type"),
  ("__bases__", .s "(type,)"),
  ("__bool__", .s "False"),
  ("__call__", .s "Any"),
  ("__ceil__", .s "__T()"),
  ("__code__", .s "object()"),
  ("__contains__", .s "False"),
  ("__del__", .s "None"),
  ("__delattr__", .s "None"),
  ("__delitem__", .s "None"),
  ("__dict__", .s "\x7b'': Any\x7d"),
  ("__dir__", .s "['']"),
  ("__divmod__", .s "(0, 0)"),
  ("__eq__", .s "False"),
  ("__format__", .s "''"),
  ("__float__", .s "0.0"),
  ("__floor__", .s "__T()"),
  ("__floordiv__", .s "0"),
  ("__ge__", .s "False"),
  ("__get__", .s "__T()"),
  ("__getattribute__", .s "Any"),
  ("__getitem__", .s "Any"),
  ("__getnewargs__", .s "()"),
  ("__getnewargs_ex__", .s "((), \x7b\x7d)"),
  ("__getslice__", .s "__T()"),
  ("__globals__", .s "\x7b\x7d"),
  ("__gt__", .s "False"),
  ("__hash__", .s "0"),
  ("__iadd__", .s "None"),
  ("__iand__", .s "None"),
  ("__imul__", .s "None"),
  ("__index__", .s "0"),
  ("__init__", .s ""),
  ("__init_subclass__", .s "None"),
  ("__int__", .s "0"),
  ("__invert__", .s "__T()"),
  ("__ior__", .s "None"),
  ("__isub__", .s "None"),
  ("__iter__", .s "__T()"),
  ("__ixor__", .s "None"),
  ("__le__", .s "False"),
  ("__len__", .s "0"),
  ("__length_hint__", .s "0"),
  ("__lshift__", .s "__T()"),
  ("__lt__", .s "False"),
  ("__mod__", .s "__T()"),
  ("__mul__", .s "__T()"),
  ("__ne__", .s "False"),
  ("__neg__", .s "__T()"),
  ("__next__", .s "Any"),
  ("__pos__", .s "__T()"),
  ("__pow__", .s "__T()"),
  ("__or__", .s "__T()"),
  ("__radd__", .s "__T()"),
  ("__rand__", .s "__T()"),
  ("__rdivmod__", .s "(0, 0)"),
  ("__rfloordiv__", .s "__T()"),
  ("__rlshift__", .s "__T()"),
  ("__rmod__", .s "__T()"),
  ("__rmul__", .s "__T()"),
  ("__ror__", .s "__T()"),
  ("__round__", .s "__T()"),
  ("__rpow__", .s "__T()"),
  ("__rrshift__", .s "__T()"),
  ("__rshift__", .s "__T()"),
  ("__rsub__", .s "__T()"),
  ("__rtruediv__", .s "__T()"),
  ("__rxor__", .s "__T()"),
  ("__reduce__", .l ["''", "()"]),
  ("__reduce_ex__", .l ["''", "()"]),
  ("__repr__", .s "''"),
  ("__set__", .s "None"),
  ("__setattr__", .s "None"),
  ("__setitem__", .s "None"),
  ("__setstate__", .s "None"),
  ("__sizeof__", .s "0"),
  ("__str__", .s "''"),
  ("__sub__", .s "__T()"),
  ("__truediv__", .s "0.0"),
  ("__trunc__", .s "__T()"),
  ("__xor__", .s "__T()"),
  ("__subclasscheck__", .s "False"),
  ("__subclasshook__", .s "False")]

/-- `Signature.KNOWN_ARGSPECS` (lines 192-216). -/
def KNOWN_ARGSPECS : List (String × String) := [
  ("__contains__", "(self, value)"),
  ("__del__", "(self)"),
  ("__dir__", "(self)"),
  ("__floor__", "(self)"),
  ("__format__", "(self, format_spec)"),
  ("__getitem__", "(self, index)"),
  ("__getnewargs__", "(self)"),
  ("__getnewargs_ex__", "(self)"),
  ("__init_subclass__", "(cls)"),
  ("__instancecheck__", "(self, instance)"),
  ("__length_hint__", "(self)"),
  ("__prepare__", "(cls, name, bases, **kwds)"),
  ("__round__", "(self, ndigits=0)"),
  ("__reduce__", "(self)"),
  ("__reduce_ex__", "(self, protocol)"),
  ("__reversed__", "(self)"),
  ("__setitem__", "(self, index, value)"),
  ("__setstate__", "(self, state)"),
  ("__sizeof__", "(self)"),
  ("__subclasses__", "(cls)"),
  ("__subclasscheck__", "(cls, subclass)"),
  ("__subclasshook__", "(cls, subclass)"),
  ("__trunc__", "(self)")]

/-! ## Return type resolution (Signature.__init__, lines 257-267) -/

/-- `Signature._init_restype_fromsignature` (lines 293-301): `pass` when
`inspect.signature` succeeds on the callable (oracle `sigOk`), no result
otherwise. -/
def init_restype_fromsignature (sigOk : Bool) : Option String :=
  if sigOk then some "pass" else none

/-- Lines 257-264 of `Signature.__init__`: the resolved return type
before the `Any`/`Unknown` collapse check, including the `__T`
substitution by the scope name. -/
def restype_resolved (tbl : List (String × KVal)) (sigOk : Bool) (name : String)
    (scope aliasO : Option String) : String :=
  let r := ((init_restype_fromsignature sigOk).orElse
      (fun _ => init_restype_fromknown tbl name scope aliasO)).getD "pass"
  match scope with
  | some sc => if sc ≠ "" then r.replace "__T" sc else r
  | none => r

/-- Lines 257-267 of `Signature.__init__`: the final `restype`, with the
collapse of a literal `Any`/`Unknown` to `pass`. -/
def signature_restype (tbl : List (String × KVal)) (sigOk : Bool) (name : String)
    (scope aliasO : Option String) : String :=
  let r := restype_resolved tbl sigOk name scope aliasO
  if r = "Any" ∨ r = "Unknown" then "pass" else r

/-! ## Docstring-derived signatures (Signature._init_argspec_fromdocstring,
lines 346-379, _parse_funcdef lines 392-404, _get_first_function_call
lines 406-420).  `ast.parse` of a miniature function header is an oracle
`P : String -> Option PyFunDef`, returning the declared name and the rendered
argument list (as produced by `_ast_args_to_list`) on success. -/

/-- The result of parsing `def <expr>: pass`: the declared name and the
argument list rendered by `_ast_args_to_list`. -/
structure PyFunDef : Type where
  fname : String
  fargs : List String
deriving DecidableEq

/-- ASCII reading of the regex class `\w`. -/
def isWordChar (c : Char) : Bool := c.isAlphanum || c == '_'

/-- The scan loop of `_get_first_function_call` (lines 413-420): nesting
counter, returning the prefix up to the first closing parenthesis that
brings the counter to zero or below. -/
def scanCall : List Char → Int → List Char → Option (List Char)
  | [], _, _ => none
  | c :: rest, n, acc =>
      if c = ')' then
        if n - 1 ≤ 0 then some ((c :: acc).reverse)
        else scanCall rest (n - 1) (c :: acc)
      else if c = '(' then scanCall rest (n + 1) (c :: acc)
      else scanCall rest n (c :: acc)

/-- `Signature._get_first_function_call` (lines 406-420): nothing without
a closing parenthesis; otherwise strip leading whitespace and return the
first balanced call prefix. -/
def get_first_function_call (expr : String) : Option String :=
  if expr = "" ∨ ')' ∉ expr.data then none
  else
    let e := expr.data.dropWhile (fun c => c = '\r' ∨ c = '\n' ∨ c = '\t' ∨ c = ' ')
    (scanCall e 0 []).map String.mk

/-- Line 361: `re.sub(r'[\[\]]', '', doc)` removes every square bracket. -/
def strip_square_brackets (s : String) : String :=
  String.mk (s.data.filter (fun c => c ≠ '[' ∧ c ≠ ']'))

/-- The anchored match of `^(\w+)\.(\w+)\(`: leading word, dot, word,
opening parenthesis; returns the two words and the remainder. -/
def splitOwnerMethod (s : String) : Option (String × String × String) :=
  let cs := s.data
  let w1 := cs.takeWhile isWordChar
  let r1 := cs.dropWhile isWordChar
  if w1 = [] then none
  else
    match r1 with
    | '.' :: r2 =>
        let w2 := r2.takeWhile isWordChar
        let r3 := r2.dropWhile isWordChar
        if w2 = [] then none
        else
          match r3 with
          | '(' :: rest => some (String.mk w1, String.mk w2, String.mk rest)
          | _ => none
    | _ => none

/-- Line 365: rewrite a leading `Owner.method(` into
`method(self : Owner, `. -/
def rewrite_self_typed (s : String) : String :=
  match splitOwnerMethod s with
  | some (o, m, rest) => m ++ "(self : " ++ o ++ ", " ++ rest
  | none => s

/-- Line 369: rewrite a leading `Owner.method(` into `method(self, `. -/
def rewrite_self (s : String) : String :=
  match splitOwnerMethod s with
  | some (_, m, rest) => m ++ "(self, " ++ rest
  | none => s

/-- The non-greedy search of `\=.+?([,\)])` after a `=`: the delimiter is
the first `,` or `)` at index at least one, with only non-newline
characters consumed before it.  Returns the delimiter and the suffix
after it. -/
def delimSplitGo : List Char → Option (Char × List Char)
  | [] => none
  | c :: rest =>
      if c = ',' ∨ c = ')' then some (c, rest)
      else if c = '\n' then none
      else delimSplitGo rest

/-- The full match attempt at a `=`: the first consumed character must
itself exist and not be a newline. -/
def delimSplit : List Char → Option (Char × List Char)
  | [] => none
  | c0 :: rest =>
      if c0 = '\n' then none
      else delimSplitGo rest

/-- Line 372: `re.sub(r'\=.+?([,\)])', r'\1', doc)` with left-to-right
non-overlapping replacement; fuel-bounded recursion (the fuel is the
length of the text, sufficient because every step consumes a character).
-/
def strip_default_assignments_aux : Nat → List Char → List Char
  | 0, cs => cs
  | _ + 1, [] => []
  | fuel + 1, c :: rest =>
      if c = '=' then
        match delimSplit rest with
        | some (d, after) => d :: strip_default_assignments_aux fuel after
        | none => c :: strip_default_assignments_aux fuel rest
      else c :: strip_default_assignments_aux fuel rest

/-- Line 372, on strings. -/
def strip_default_assignments (s : String) : String :=
  String.mk (strip_default_assignments_aux s.data.length s.data)

/-- `Signature._parse_funcdef` (lines 392-404): parse the expression as a
function definition (oracle `P`); accept it when name mismatches are
allowed or the declared name equals the callable's name; a mismatch emits
a warning and yields no result. -/
def parse_funcdef (P : String → Option PyFunDef) (expr : String)
    (allowNameMismatch : Bool) (name : String) : Option PyFunDef :=
  match P expr with
  | some node =>
      if allowNameMismatch ∨ node.fname = name then some node else none
  | none => none

/-- The repair cascade of `_init_argspec_fromdocstring` (lines 358-375),
exactly as the sequential `if not call:` blocks with the reassignments of
`doc`: (i) the extracted call as is; (ii) square brackets stripped; (iii)
`Owner.method(` of the bracket-stripped text rewritten with a typed self;
(iv) rewritten with a bare self; (v) inline default assignments of the
bracket-stripped text stripped. -/
def docstring_select (P : String → Option PyFunDef) (allow : Bool) (name : String)
    (doc0 : String) : Option PyFunDef :=
  match get_first_function_call doc0 with
  | none => none
  | some doc =>
      match parse_funcdef P doc allow name with
      | some c => some c
      | none =>
          let doc := strip_square_brackets doc
          match parse_funcdef P doc allow name with
          | some c => some c
          | none =>
              let doc2 := rewrite_self_typed doc
              match parse_funcdef P doc2 allow name with
              | some c => some c
              | none =>
                  let doc3 := rewrite_self doc
                  match parse_funcdef P doc3 allow name with
                  | some c => some c
                  | none =>
                      let doc4 := strip_default_assignments doc
                      parse_funcdef P doc4 allow name

/-- `Signature._init_argspec_fromdocstring` (lines 346-379): with an
explicitly supplied (truthy) documentation text name mismatches are
allowed; otherwise the callable's own docstring is used and the declared
name must match.  On success the argument list is reconciled with the
implicit defaults and rendered. -/
def init_argspec_fromdocstring (P : String → Option PyFunDef) (name : String)
    (defaults : List String) (docArg ownDoc : Option String) : Option String :=
  let allow := truthyO docArg
  let docO := if truthyO docArg then docArg else ownDoc
  match docO with
  | none => none
  | some d =>
      (docstring_select P allow name d).map (fun c =>
        name ++ "(" ++
          String.intercalate ", " (insert_default_arguments c.fargs defaults) ++ ")")

/-! ## Native introspection (Signature._init_argspec_fromsignature,
lines 272-291) and argspec extraction (_init_argspec_fromargspec,
lines 303-316). -/

/-- `inspect.Parameter.kind`. -/
inductive PKind : Type where
  | posOnly : PKind
  | posOrKw : PKind
  | varPos : PKind
  | kwOnly : PKind
  | varKw : PKind
deriving DecidableEq

/-- One `inspect.Parameter`: name, kind, and optional default given as
its `repr` text together with whether `ast.literal_eval` accepts that
text (the oracle outcome of line 283). -/
structure SParam : Type where
  pname : String
  kind : PKind
  defaultVal : Option (String × Bool)
deriving DecidableEq

/-- The per-parameter normalization of lines 280-288: a default whose
repr is not literal-evaluable is replaced by `None`; a positional-only
parameter is widened to positional-or-keyword. -/
def normalizeParam (p : SParam) : SParam :=
  let p1 := match p.defaultVal with
    | some (_, false) => { p with defaultVal := some ("None", true) }
    | _ => p
  if p1.kind = PKind.posOnly then { p1 with kind := PKind.posOrKw } else p1

/-- The `=default` suffix of a rendered parameter. -/
def defaultSuffix (p : SParam) : String :=
  match p.defaultVal with
  | some (r, _) => "=" ++ r
  | none => ""

/-- `str(inspect.Signature)` for parameter lists without positional-only
parameters (the only shape reaching the renderer after normalization):
`*`/`**` markers for the variadic kinds and a lone `*` before the first
keyword-only parameter when no variadic-positional parameter precedes
it. -/
def renderParamsGo : Bool → List SParam → List String
  | _, [] => []
  | seenStar, p :: rest =>
      match p.kind with
      | .varPos => ("*" ++ p.pname ++ defaultSuffix p) :: renderParamsGo true rest
      | .kwOnly =>
          if seenStar then (p.pname ++ defaultSuffix p) :: renderParamsGo true rest
          else "*" :: (p.pname ++ defaultSuffix p) :: renderParamsGo true rest
      | .varKw => ("**" ++ p.pname ++ defaultSuffix p) :: renderParamsGo seenStar rest
      | _ => (p.pname ++ defaultSuffix p) :: renderParamsGo seenStar rest

/-- `str(sig)` of line 291. -/
def renderSignature (ps : List SParam) : String :=
  "(" ++ String.intercalate ", " (renderParamsGo false ps) ++ ")"

/-- `Signature._init_argspec_fromsignature` (lines 272-291): no result
when `inspect.signature` raises (oracle `none`), otherwise the callable
name followed by the normalized signature text. -/
def init_argspec_fromsignature (sigO : Option (List SParam)) (name : String) :
    Option String :=
  sigO.map (fun ps => name ++ renderSignature (ps.map normalizeParam))

/-- The result of `inspect.getfullargspec`: positional argument names and
the optional variadic names (falsy names behave as absent). -/
structure ArgSpecInfo : Type where
  args : List String
  varargs : Option String
  varkw : Option String
deriving DecidableEq

/-- `Signature._init_argspec_fromargspec` (lines 303-316). -/
def init_argspec_fromargspec (aO : Option ArgSpecInfo) (name : String)
    (defaults : List String) : Option String :=
  aO.map (fun a =>
    let argn := a.args
      ++ (if truthyO a.varargs then ["*" ++ a.varargs.getD ""] else [])
      ++ (if truthyO a.varkw then ["**" ++ a.varkw.getD ""] else [])
    name ++ "(" ++
      String.intercalate ", " (insert_default_arguments argn defaults) ++ ")")

/-! ## The full signature resolution chain (Signature.__init__,
lines 240-256).  The call to `_init_argspec_fromsignature` at line 251 is
commented out in the source ("Disable fromsignature() because it doesn't
work as well as argspec"), so the native-signature oracle `sigO` is
accepted but never consulted for the parameter list. -/

/-- Lines 240-256 of `Signature.__init__`: the constructor-from-module-doc
branch, the property short-circuit, then the first-success chain
argspec, known argspecs, docstring, bare fallback.  `hasCall`/`hasGet`
are the `hasattr` oracles of line 243. -/
def signature_fullsig (name : String) (scope : Option String)
    (decorators : List String) (defaults0 : List String)
    (module_doc : Option String) (hasCall hasGet : Bool)
    (sigO : Option (List SParam)) (aO : Option ArgSpecInfo)
    (P : String → Option PyFunDef) (ownDoc : Option String)
    (scope_alias : Option String) : String :=
  let defaults := init_defaults scope decorators defaults0
  let pre : Option String :=
    if (name = "__init__" ∨ name = "__new__") ∧ truthyO module_doc then
      init_argspec_fromdocstring P name defaults module_doc ownDoc
    else if ¬hasCall ∧ hasGet then
      some (name ++ "(" ++ String.intercalate ", " defaults ++ ")")
    else none
  (((pre.orElse (fun _ => init_argspec_fromargspec aO name defaults)).orElse
      (fun _ => init_argspec_fromknown KNOWN_ARGSPECS name scope scope_alias)).orElse
      (fun _ => init_argspec_fromdocstring P name defaults none ownDoc)).getD
    (name ++ "(" ++ String.intercalate ", " defaults ++ ")")

/-! ## Origin resolution (MemberInfo._get_typename, lines 606-629) and
base filtering (MemberInfo.__init__, lines 562-582). -/

/-- The introspected identity of a runtime type: its `__name__` and its
reported `__module__` (`none` when the attribute is missing). -/
structure PyTypeInfo : Type where
  tname : String
  tmodule : Option String
deriving DecidableEq

/-- `LIES_ABOUT_MODULE` (lines 67-81), with `builtins.__name__` equal to
`builtins`. -/
def LIES_ABOUT_MODULE : List String := [
  "builtins.weakcallableproxy",
  "builtins.weakproxy",
  "builtins.weakref",
  "os.stat_result",
  "os.statvfs_result",
  "numpy.broadcast",
  "numpy.busdaycalendar",
  "numpy.dtype",
  "numpy.flagsobj",
  "numpy.flatiter",
  "numpy.ndarray",
  "numpy.nditer"]

/-- `'-'.replace` of a type name (`value_type.__name__.replace('-', '_')`,
line 609): every dash becomes an underscore. -/
def replaceDash (s : String) : String :=
  String.mk (s.data.map (fun c => if c = '-' then '_' else c))

/-- `MemberInfo._get_typename` (lines 606-629), Python 3 reading (the
Python 2 `exceptions` workaround is dead code there), assuming the
introspection succeeds (the `except` branch that warns and yields no
typename is not modelled): returns the required imports and the resolved
type name.  A reported origin equal to the current namespace, or a
qualified name in the lies set, yields the bare name; a genuinely
foreign type yields the fully qualified name and an import of its
origin. -/
def get_typename (t : PyTypeInfo) (inModule : Option String) :
    List String × String :=
  let typeName := replaceDash t.tname
  match t.tmodule with
  | some m =>
      if m ≠ "" ∧ m ≠ "<unknown>" then
        if some m = inModule then ([m], typeName)
        else
          let fullname := m ++ "." ++ typeName
          if fullname ∈ LIES_ABOUT_MODULE then (inModule.toList, typeName)
          else ([m], fullname)
      else ([], typeName)
  | none => ([], typeName)

/-- Membership of the current namespace name in a list of required
imports (`module in ni`, line 579); a `None` current namespace is never a
member here (see the model note on `get_typename`). -/
def moduleMem (inModule : Option String) (ni : List String) : Bool :=
  match inModule with
  | some m => m ∈ ni
  | none => false

/-- The base resolution loop of `MemberInfo.__init__` (lines 574-582):
accumulates base names and required imports, skipping a base with a falsy
resolved name and skipping a base whose resolved name equals the class's
own resolved name when the current namespace is among the base's
required imports. -/
def resolve_bases (typeName : String) (inModule : Option String)
    (ni0 : List String) (bases : List PyTypeInfo) : List String × List String :=
  bases.foldl (fun acc b =>
    let r := get_typename b inModule
    if r.2 = "" then acc
    else if r.2 = typeName ∧ moduleMem inModule r.1 then acc
    else (acc.1 ++ [r.2], acc.2 ++ r.1)) (([], ni0) : List String × List String)

/-! ## Parameter-name collision suffixing
(Signature._ast_arg_to_str, lines 516-523). -/

/-- The `while new_arg_id in seen_names` search of lines 517-521,
fuel-bounded: the first suffix `base ++ toString i`, `i` counting up from
the given start, that is not among the seen names. -/
def freshSuffixGo (seen : List String) (base : String) : Nat → Nat → String
  | 0, i => base ++ toString i
  | fuel + 1, i =>
      if (base ++ toString i) ∈ seen then freshSuffixGo seen base fuel (i + 1)
      else base ++ toString i

/-- Lines 516-523 of `_ast_arg_to_str`: an argument name already seen is
replaced by the first free suffixed name `name2`, `name3`, ...  (the fuel
`seen.length + 1` suffices, the search being over distinct candidates).
-/
def ast_arg_rename (seen : List String) (argId : String) : String :=
  if argId ∈ seen then freshSuffixGo seen argId (seen.length + 1) 2
  else argId

/-- The threading of `seen_names` through `_ast_args_to_list`
(lines 422-428) restricted to plain named arguments: each name is
renamed against the set and then added to it (line 523). -/
def paramNamesRender : List String → List String → List String
  | [], _ => []
  | a :: rest, seen =>
      let a' := ast_arg_rename seen a
      a' :: paramNamesRender rest (a' :: seen)

/-! ## The stub entry data model (MemberInfo, lines 540-687) and the
orchestrator (ScrapeState, lines 704-902).  A `MInfo` carries the fields
of a classified `MemberInfo` that reach the output: classification
itself (`MemberInfo.__init__` applied to a live value) is a pure function
of the value's introspected metadata and is supplied by the `getattr`
oracles below as an already-classified entry. -/

/-- The resolved signature attached to a callable entry. -/
structure SigM : Type where
  fullsig : String
  restype : String
  decorators : List String
deriving DecidableEq

/-- A classified stub entry. -/
inductive MInfo : Type where
  | mk (name : String) (literal : Option String) (typeName : Option String)
      (scopeName : Option String) (needImports : List String)
      (bases : List String) (documentation : Option String)
      (sig : Option SigM) (hasValue : Bool) (valueRepr : String)
      (isNoValueFlag : Bool) (members : List MInfo) : MInfo

/-- Entry name. -/
def MInfo.name : MInfo → String
  | .mk n _ _ _ _ _ _ _ _ _ _ _ => n

/-- Pre-rendered literal text, if any. -/
def MInfo.literal : MInfo → Option String
  | .mk _ l _ _ _ _ _ _ _ _ _ _ => l

/-- Resolved type name, if any. -/
def MInfo.typeName : MInfo → Option String
  | .mk _ _ t _ _ _ _ _ _ _ _ _ => t

/-- Scope name (set for locally declared classes). -/
def MInfo.scopeName : MInfo → Option String
  | .mk _ _ _ s _ _ _ _ _ _ _ _ => s

/-- Required imports. -/
def MInfo.needImports : MInfo → List String
  | .mk _ _ _ _ ni _ _ _ _ _ _ _ => ni

/-- Base names (class entries). -/
def MInfo.bases : MInfo → List String
  | .mk _ _ _ _ _ b _ _ _ _ _ _ => b

/-- Attached documentation. -/
def MInfo.documentation : MInfo → Option String
  | .mk _ _ _ _ _ _ d _ _ _ _ _ => d

/-- Attached signature. -/
def MInfo.sig : MInfo → Option SigM
  | .mk _ _ _ _ _ _ _ s _ _ _ _ => s

/-- Whether the classified value was not `None`. -/
def MInfo.hasValue : MInfo → Bool
  | .mk _ _ _ _ _ _ _ _ h _ _ _ => h

/-- `repr(value)` of the classified value (oracle text). -/
def MInfo.valueRepr : MInfo → String
  | .mk _ _ _ _ _ _ _ _ _ v _ _ => v

/-- Whether the entry is the `MemberInfo.NO_VALUE` sentinel. -/
def MInfo.isNoValue : MInfo → Bool
  | .mk _ _ _ _ _ _ _ _ _ _ f _ => f

/-- Child entries. -/
def MInfo.members : MInfo → List MInfo
  | .mk _ _ _ _ _ _ _ _ _ _ _ ms => ms

/-- Replace the child entries (phase 2 population). -/
def MInfo.withMembers : MInfo → List MInfo → MInfo
  | .mk n l t s ni b d sg h v f _, ms => .mk n l t s ni b d sg h v f ms

/-- Lines 790-796 of `collect_second_level_members`: append a
`@staticmethod` decorator to the signature of every child entry. -/
def MInfo.retagMembersStatic : MInfo → MInfo
  | .mk n l t s ni b d sg h v f ms =>
      .mk n l t s ni b d sg h v f (ms.map (fun c =>
        match c with
        | .mk cn cl ct cs cni cb cd csg ch cv cf cms =>
            match csg with
            | some sg2 =>
                .mk cn cl ct cs cni cb cd
                  (some { sg2 with decorators := sg2.decorators ++ ["@staticmethod"] })
                  ch cv cf cms
            | none => .mk cn cl ct cs cni cb cd csg ch cv cf cms))

/-- `repr` of a documentation string, modelled for texts free of quotes
and escapes (the scraper passes documentation through `repr` at
lines 646 and 664). -/
def pyReprDoc (s : String) : String := "'" ++ s ++ "'"

/-- The `seen_decorators` filter of `_lines_with_signature`
(lines 656-661): keep the first occurrence of each decorator. -/
def dedupKeepOrderGo : List String → List String → List String
  | [], _ => []
  | d :: rest, seen =>
      if d ∈ seen then dedupKeepOrderGo rest seen
      else d :: dedupKeepOrderGo rest (d :: seen)

/-- Order-preserving deduplication. -/
def dedupKeepOrder (l : List String) : List String := dedupKeepOrderGo l []

/-- `MemberInfo._lines_with_signature` (lines 655-669). -/
def lines_with_signature (doc : Option String) (s : SigM) : List String :=
  dedupKeepOrder s.decorators
    ++ ["def " ++ s.fullsig ++ ":"]
    ++ (if truthyO doc then ["    " ++ pyReprDoc (doc.getD "")] else [])
    ++ [if s.restype ≠ "" then "    " ++ s.restype else "    pass"]
    ++ [""]

/-- `MemberInfo._lines_with_members` (lines 640-653), given the already
rendered child entries. -/
def class_lines (name : String) (bases : List String) (doc : Option String)
    (membersNonempty : Bool) (body : List String) : List String :=
  [if bases ≠ [] then "class " ++ name ++ "(" ++ String.intercalate "," bases ++ "):"
   else "class " ++ name ++ ":"]
    ++ (if truthyO doc then ["    " ++ pyReprDoc (doc.getD "")] else [])
    ++ (if membersNonempty then body else ["    pass"])
    ++ [""]

mutual

/-- `MemberInfo.as_str` (lines 671-687): exactly one rendering path per
entry, in the order literal, class body, signature, typename
instantiation, value repr, bare name. -/
def MInfo.asStr (indent : String) : MInfo → String
  | .mk name lit tn _sn _ni bases doc sg hv vr _f mems =>
      if truthyO lit then indent ++ name ++ " = " ++ lit.getD ""
      else if !mems.isEmpty then
        String.intercalate "\n"
          ((class_lines name bases doc true (renderMembers mems)).map
            (fun s => indent ++ s))
      else
        match sg with
        | some s =>
            String.intercalate "\n"
              ((lines_with_signature doc s).map (fun l => indent ++ l))
        | none =>
            match tn with
            | some t => indent ++ name ++ " = " ++ t ++ "()"
            | none =>
                if hv then indent ++ name ++ " = " ++ vr
                else indent ++ name

/-- The member loop of `_lines_with_members` (lines 647-650): render each
child with a four-space indent, skipping the `NO_VALUE` sentinel. -/
def renderMembers : List MInfo → List String
  | [] => []
  | c :: cs =>
      if c.isNoValue then renderMembers cs
      else MInfo.asStr "    " c :: renderMembers cs

end

/-! ## The orchestrator (ScrapeState, lines 704-902). -/

/-- `keyword.kwlist` of Python 3 (`keyword.iskeyword`, line 818). -/
def PY_KEYWORDS : List String := [
  "False", "None", "True", "and", "as", "assert", "async", "await",
  "break", "class", "continue", "def", "del", "elif", "else", "except",
  "finally", "for", "from", "global", "if", "import", "in", "is",
  "lambda", "nonlocal", "not", "or", "pass", "raise", "return", "try",
  "while", "with", "yield"]

/-- `keyword.iskeyword`. -/
def isPyKeyword (s : String) : Bool := s ∈ PY_KEYWORDS

/-- One iteration of the name loop of `ScrapeState._collect_members`
(lines 817-849): skip keywords; append a bare-name substitute (a `None`
substitute suppresses the name); append a scope-qualified substitute;
skip names already present at loop entry; skip retrieval failures,
values rejected by `_should_add_value`, and values inherited unchanged
from the method resolution order; otherwise append the classified
entry. -/
def collect_step (existing : List String)
    (substitutes : List (String × Option MInfo)) (modScope : String)
    (attrs : String → Option MInfo) (shouldAdd mroHas : String → Bool)
    (members : List MInfo) (name : String) : List MInfo :=
  if isPyKeyword name then members
  else
    match dictGet substitutes name with
    | some (some m) => members ++ [m]
    | some none => members
    | none =>
        match dictGet substitutes (modScope ++ "." ++ name) with
        | some (some m) => members ++ [m]
        | some none => members
        | none =>
            if name ∈ existing then members
            else
              match attrs name with
              | none => members
              | some v =>
                  if ¬ shouldAdd name then members
                  else if mroHas name then members
                  else members ++ [v]

/-- `ScrapeState._collect_members` (lines 798-849): `existing_names` is
computed once from the members present at entry, then the name loop runs
over the enumeration order of `dir`. -/
def collect_members (initMembers : List MInfo)
    (substitutes : List (String × Option MInfo)) (names : List String)
    (modScope : String) (attrs : String → Option MInfo)
    (shouldAdd mroHas : String → Bool) : List MInfo :=
  let existing := initMembers.map MInfo.name
  names.foldl (collect_step existing substitutes modScope attrs shouldAdd mroHas)
    initMembers

/-- A value entry used by the substitute tables: plain value of a
builtin type (its typename resolution per `_get_typename` with no
current module). -/
def mkValueMInfo (name tn vr : String) : MInfo :=
  .mk name none (some tn) none ["builtins"] [] none none true vr false []

/-- `MODULE_MEMBER_SUBSTITUTE` (lines 690-694): `__builtins__` becomes a
plain dict-typed value entry, `__spec__` and `__loader__` are
suppressed. -/
def MODULE_MEMBER_SUBSTITUTE : List (String × Option MInfo) := [
  ("__builtins__", some (mkValueMInfo "__builtins__" "builtins.dict" "\x7b\x7d")),
  ("__spec__", none),
  ("__loader__", none)]

/-- `CLASS_MEMBER_SUBSTITUTE` (lines 696-702) plus the per-class
`__class__` literal entry added at line 787. -/
def classSubstitutes (classTn : Option String) : List (String × Option MInfo) := [
  ("__bases__", some (mkValueMInfo "__bases__" "builtins.tuple" "()")),
  ("__mro__", some (mkValueMInfo "__mro__" "builtins.tuple" "()")),
  ("__dict__", some (mkValueMInfo "__dict__" "builtins.dict" "\x7b\x7d")),
  ("__doc__", none),
  ("__new__", none),
  ("__class__", some (.mk "__class__" classTn none none [] [] none none false "" false []))]

/-- The fixed per-scan inputs of a run: the namespace name, the `dir`
enumeration orders, and the introspection oracles (classification of a
retrieved value is itself deterministic, so each `getattr` oracle yields
the classified entry, `none` standing for a retrieval failure). -/
structure ModuleModel : Type where
  moduleName : String
  dirNames : List String
  attrs : String → Option MInfo
  shouldAdd : String → Bool
  mroHas : String → Bool
  backfill : String → MInfo
  innerDir : String → List String
  innerAttrs : String → String → Option MInfo
  innerShouldAdd : String → String → Bool
  innerMroHas : String → String → Bool

/-- `ScrapeState.collect_top_level_members` (lines 765-774): the member
loop over the top-level names followed by the undeclared-local-type
backfill, prepended in member order. -/
def collect_top_level (M : ModuleModel) : List MInfo :=
  let members := collect_members [] MODULE_MEMBER_SUBSTITUTE M.dirNames
    M.moduleName M.attrs M.shouldAdd M.mroHas
  let mNames := members.map MInfo.name
  let undeclared := members.filterMap (fun m =>
    match m.typeName with
    | some tn =>
        if m.hasValue ∧ tn ≠ "" ∧ '.' ∉ tn.data ∧ tn ∉ mNames then
          some (M.backfill tn)
        else none
    | none => none)
  undeclared ++ members

/-- `ScrapeState._should_collect_members` (lines 776-781). -/
def should_collect_members (moduleName : String) (m : MInfo) : Bool :=
  (moduleName ∈ m.needImports ∧ m.typeName = some m.name)
    ∨ m.typeName = some "builtins.CompiledLib"

/-- `ScrapeState.collect_second_level_members` (lines 783-796): populate
the members of each collected local class, and retag every child
callable as static when the scope and type names differ. -/
def collect_second_level (M : ModuleModel) (members : List MInfo) :
    List MInfo :=
  members.map (fun mi =>
    if should_collect_members M.moduleName mi then
      let modScope := match mi.scopeName with
        | some s => if s ≠ "" then M.moduleName ++ "." ++ s else M.moduleName
        | none => M.moduleName
      let mems2 := collect_members mi.members (classSubstitutes mi.typeName)
        (M.innerDir mi.name) modScope (M.innerAttrs mi.name)
        (M.innerShouldAdd mi.name) (M.innerMroHas mi.name)
      let mi2 := mi.withMembers mems2
      if mi.scopeName ≠ mi.typeName then mi2.retagMembersStatic else mi2
    else mi)

/-- The import accumulation of `ScrapeState.dump` (lines 885-888): every
`need_imports` entry of every top-level member, in member order (the
Python code inserts them into a set). -/
def collectImports (members : List MInfo) : List String :=
  members.foldl (fun acc m => acc ++ m.needImports) []

/-- Insertion of a string into a sorted list. -/
def insertSorted (x : String) : List String → List String
  | [] => [x]
  | y :: ys => if x ≤ y then x :: y :: ys else y :: insertSorted x ys

/-- `sorted` on a list of strings (insertion sort; `sorted` at line 892).
-/
def pySorted : List String → List String
  | [] => []
  | x :: xs => insertSorted x (pySorted xs)

/-- The specification of an enumeration of the import set that `dump`
iterates (lines 885-892): a duplicate-free list whose members are
exactly the accumulated imports minus the module's own name.  Any two
runs of the scraper enumerate this same set, in whatever order the
hash-set iteration yields. -/
def importEnumSpec (members : List MInfo) (moduleName : String)
    (e : List String) : Prop :=
  e.Nodup ∧
    e.toFinset = ((collectImports members).filter (fun x => x ≠ moduleName)).toFinset

/-- `ScrapeState.dump` (lines 884-902): the emitted text, given an
enumeration `e` of the import set; the import lines are sorted, followed
by a blank line, then each member's rendering in discovery order, each
`print` appending a newline. -/
def dumpText (moduleName : String) (members : List MInfo) (e : List String) :
    String :=
  let importLines :=
    if e ≠ [] then (pySorted e).map (fun m => "import " ++ m ++ "\n") ++ ["\n"]
    else []
  String.join (importLines ++ members.map (fun v => MInfo.asStr "" v ++ "\n"))

/-- The members surviving the whole scan: top-level collection, exclusion
filtering (line 1314), second-level collection. -/
def pipeline_members (M : ModuleModel) (excluded : List String) : List MInfo :=
  collect_second_level M
    ((collect_top_level M).filter (fun m => m.name ∉ excluded))

/-- The full scan-and-dump pipeline: `collect_top_level_members`,
exclusion filtering, `collect_second_level_members`, `dump`, with `e` the
enumeration order of the import set. -/
def full_pipeline (M : ModuleModel) (excluded : List String)
    (e : List String) : String :=
  dumpText M.moduleName (pipeline_members M excluded) e

/-! # Theorems -/

/-! ## Helper lemmas on sorting and enumeration of the import set -/

theorem insertSorted_perm (x : String) (l : List String) :
    List.Perm (insertSorted x l) (x :: l) := by
  induction l with
  | nil => simp [insertSorted]
  | cons y ys ih =>
      rw [insertSorted]
      split
      · exact List.Perm.refl _
      · exact (ih.cons y).trans (List.Perm.swap x y ys)

theorem insertSorted_sorted (x : String) (l : List String)
    (h : List.Sorted (· ≤ ·) l) : List.Sorted (· ≤ ·) (insertSorted x l) := by
  induction l with
  | nil => simp [insertSorted]
  | cons y ys ih =>
      rw [insertSorted]
      rw [List.sorted_cons] at h
      split
      · rename_i hxy
        rw [List.sorted_cons]
        refine ⟨?_, List.sorted_cons.mpr h⟩
        intro b hb
        rcases List.mem_cons.mp hb with rfl | hb2
        · exact hxy
        · exact le_trans hxy (h.1 b hb2)
      · rename_i hxy
        rw [List.sorted_cons]
        refine ⟨?_, ih h.2⟩
        intro b hb
        have hmem := (insertSorted_perm x ys).mem_iff.mp hb
        rcases List.mem_cons.mp hmem with rfl | hb2
        · exact le_of_not_le hxy
        · exact h.1 b hb2

theorem pySorted_perm (l : List String) : List.Perm (pySorted l) l := by
  induction l with
  | nil => simp [pySorted]
  | cons x xs ih =>
      rw [pySorted]
      exact (insertSorted_perm _ _).trans (ih.cons x)

theorem pySorted_sorted (l : List String) : List.Sorted (· ≤ ·) (pySorted l) := by
  induction l with
  | nil => simp [pySorted]
  | cons x xs ih => exact insertSorted_sorted x _ ih

theorem pySorted_congr {l1 l2 : List String} (h : List.Perm l1 l2) :
    pySorted l1 = pySorted l2 :=
  List.eq_of_perm_of_sorted
    (((pySorted_perm l1).trans h).trans (pySorted_perm l2).symm)
    (pySorted_sorted l1) (pySorted_sorted l2)

theorem importEnum_perm {mems : List MInfo} {mn : String} {e1 e2 : List String}
    (h1 : importEnumSpec mems mn e1) (h2 : importEnumSpec mems mn e2) :
    List.Perm e1 e2 := by
  refine (List.perm_ext_iff_of_nodup h1.1 h2.1).mpr (fun a => ?_)
  rw [← List.mem_toFinset, h1.2, ← h2.2, List.mem_toFinset]

theorem dumpText_enum_invariant {mn : String} {mems : List MInfo}
    {e1 e2 : List String} (h1 : importEnumSpec mems mn e1)
    (h2 : importEnumSpec mems mn e2) :
    dumpText mn mems e1 = dumpText mn mems e2 := by
  have hperm := importEnum_perm h1 h2
  have hsort := pySorted_congr hperm
  by_cases hnil : e1 = []
  · have hnil2 : e2 = [] := (hnil ▸ hperm).symm.eq_nil
    rw [hnil, hnil2]
  · have hnil2 : e2 ≠ [] := by
      intro h
      exact hnil (h ▸ hperm).eq_nil
    rw [dumpText, dumpText, if_pos hnil, if_pos hnil2, hsort]

/-! ## Claim theorems -/

/-- Claim C10: with a non-null scope and no `@staticmethod` decorator,
the implicit binding argument (`cls` under `@classmethod`, else `self`)
is prepended to the defaults exactly when the list is empty or its head
differs from it; the operation is idempotent, never duplicating a
leading binding argument. -/
theorem claim_C10_binding_idempotent :
    (∀ scope dec d, truthyO scope = true → "@staticmethod" ∉ dec →
        (d = [] ∨ d.head? ≠ some (bindingArg dec)) →
        init_defaults scope dec d = bindingArg dec :: d)
  ∧ (∀ scope dec d, truthyO scope = true → "@staticmethod" ∉ dec →
        d.head? = some (bindingArg dec) →
        init_defaults scope dec d = d)
  ∧ (∀ scope dec d,
        init_defaults scope dec (init_defaults scope dec d) =
          init_defaults scope dec d)
  ∧ (∀ scope dec d,
        (init_defaults scope dec d).take 2 = [bindingArg dec, bindingArg dec] →
        d.take 2 = [bindingArg dec, bindingArg dec]) := by
  have hbody : ∀ scope dec d, truthyO scope = true → "@staticmethod" ∉ dec →
      init_defaults scope dec d =
        if d = [] ∨ d.head? ≠ some (bindingArg dec) then bindingArg dec :: d
        else d := by
    intro s dec d hs hst
    rw [init_defaults, if_pos ⟨hs, hst⟩]
  refine ⟨?_, ?_, ?_, ?_⟩
  · intro s dec d hs hst hc
    rw [hbody s dec d hs hst, if_pos hc]
  · intro s dec d hs hst hc
    rw [hbody s dec d hs hst, if_neg]
    rintro (rfl | h)
    · simp at hc
    · exact h hc
  · intro s dec d
    by_cases hcond : truthyO s = true ∧ "@staticmethod" ∉ dec
    · rw [hbody s dec d hcond.1 hcond.2]
      by_cases hc : d = [] ∨ d.head? ≠ some (bindingArg dec)
      · rw [if_pos hc, hbody s dec _ hcond.1 hcond.2, if_neg]
        rintro (h | h)
        · exact List.cons_ne_nil _ _ h
        · exact h rfl
      · rw [if_neg hc, hbody s dec d hcond.1 hcond.2, if_neg hc]
    · rw [init_defaults, if_neg hcond, init_defaults, if_neg hcond]
  · intro s dec d
    by_cases hcond : truthyO s = true ∧ "@staticmethod" ∉ dec
    · rw [hbody s dec d hcond.1 hcond.2]
      by_cases hc : d = [] ∨ d.head? ≠ some (bindingArg dec)
      · rw [if_pos hc]
        intro htake
        exfalso
        rw [List.take_succ_cons] at htake
        injection htake with _ h2
        cases d with
        | nil => simp at h2
        | cons a t =>
            rw [List.take_succ_cons, List.take_zero] at h2
            injection h2 with ha _
            rcases hc with hnil | hc
            · exact List.cons_ne_nil a t hnil
            · exact hc (by rw [List.head?_cons, ha])
      · rw [if_neg hc]
        exact fun h => h
    · rw [init_defaults, if_neg hcond]
      exact fun h => h

/-- Claim C10 witness: concrete instances of the four parts. -/
theorem claim_C10_witness :
    init_defaults (some "C") [] ["x"] = ["self", "x"]
  ∧ init_defaults (some "C") [] ["self", "x"] = ["self", "x"]
  ∧ init_defaults (some "C") ["@classmethod"]
      (init_defaults (some "C") ["@classmethod"] []) =
      init_defaults (some "C") ["@classmethod"] [] :=
  ⟨claim_C10_binding_idempotent.1 (some "C") [] ["x"] (by decide) (by decide)
      (by decide),
   claim_C10_binding_idempotent.2.1 (some "C") [] ["self", "x"] (by decide)
      (by decide) (by decide),
   claim_C10_binding_idempotent.2.2.1 (some "C") ["@classmethod"] []⟩

/-! ## Claim C6: default-argument reconciliation -/

theorem firstMismatchIdx_none (ds bs : List String)
    (hlen : ds.length ≤ bs.length)
    (h : ∀ p ∈ ds.zip bs, defaultMismatch p.1 p.2 = false) :
    firstMismatchIdx ds bs = none := by
  induction ds generalizing bs with
  | nil => rfl
  | cons x ds ih =>
      cases bs with
      | nil => simp at hlen
      | cons y bs =>
          rw [firstMismatchIdx]
          have hxy : defaultMismatch x y = false := h (x, y) (by simp)
          rw [hxy]
          simp only [Bool.false_eq_true, if_false]
          rw [ih bs (by simpa using hlen)
            (fun p hp => h p (by rw [List.zip_cons_cons]
                                 exact List.mem_cons.mpr (Or.inr hp)))]
          rfl

theorem firstMismatchIdx_append (d1 a1 : List String) (x y : String)
    (d2 a2 : List String) (hlen : d1.length = a1.length)
    (hpre : ∀ p ∈ d1.zip a1, defaultMismatch p.1 p.2 = false)
    (hxy : defaultMismatch x y = true) :
    firstMismatchIdx (d1 ++ x :: d2) (a1 ++ y :: a2) = some d1.length := by
  induction d1 generalizing a1 with
  | nil =>
      cases a1 with
      | nil => simp [firstMismatchIdx, hxy]
      | cons _ _ => simp at hlen
  | cons p d1 ih =>
      cases a1 with
      | nil => simp at hlen
      | cons q a1 =>
          have hpq : defaultMismatch p q = false := hpre (p, q) (by simp)
          simp only [List.cons_append, firstMismatchIdx, hpq,
            Bool.false_eq_true, if_false]
          rw [show d1.append (x :: d2) = d1 ++ x :: d2 from rfl,
            show a1.append (y :: a2) = a1 ++ y :: a2 from rfl,
            ih a1 (by simpa using hlen)
              (fun r hr => hpre r (by rw [List.zip_cons_cons]
                                      exact List.mem_cons.mpr (Or.inr hr)))]
          simp

/-- Claim C6: reconciliation of inferred parameter names with the
implicit defaults: a shorter inferred list gets the implicit list
prepended wholesale; otherwise at the first front-to-back mismatch
(implicit `cls` against inferred `type` counting as a match) the
mismatching prefix of the inferred names is replaced by the entire
implicit list, keeping the inferred names from the mismatch onwards; no
mismatch leaves the inferred list unchanged. -/
theorem claim_C6_default_reconciliation :
    (∀ args defaults : List String, args.length < defaults.length →
        insert_default_arguments args defaults = defaults ++ args)
  ∧ (∀ d1 : List String, ∀ x : String, ∀ d2 a1 : List String, ∀ y : String,
      ∀ a2 : List String,
        d1.length = a1.length →
        (∀ p ∈ d1.zip a1, defaultMismatch p.1 p.2 = false) →
        defaultMismatch x y = true →
        (d1 ++ x :: d2).length ≤ (a1 ++ y :: a2).length →
        insert_default_arguments (a1 ++ y :: a2) (d1 ++ x :: d2)
          = (d1 ++ x :: d2) ++ y :: a2)
  ∧ (∀ args defaults : List String, defaults.length ≤ args.length →
        (∀ p ∈ defaults.zip args, defaultMismatch p.1 p.2 = false) →
        insert_default_arguments args defaults = args) := by
  refine ⟨?_, ?_, ?_⟩
  · intro args defaults hlt
    rw [insert_default_arguments, if_pos hlt]
  · intro d1 x d2 a1 y a2 hlen hpre hxy hle
    rw [insert_default_arguments, if_neg (by omega),
      firstMismatchIdx_append d1 a1 x y d2 a2 hlen hpre hxy]
    have hdrop : (a1 ++ y :: a2).drop d1.length = y :: a2 := by
      rw [hlen, List.drop_left]
    show d1 ++ x :: d2 ++ (a1 ++ y :: a2).drop d1.length = _
    rw [hdrop]
  · intro args defaults hle h
    rw [insert_default_arguments, if_neg (by omega),
      firstMismatchIdx_none defaults args hle h]

/-- Claim C6 witness: concrete instances of the three parts. -/
theorem claim_C6_witness :
    insert_default_arguments ["a"] ["self", "x"] = ["self", "x", "a"]
  ∧ insert_default_arguments ["a", "b"] ["self"] = ["self", "a", "b"]
  ∧ insert_default_arguments ["type", "x"] ["cls"] = ["type", "x"] :=
  ⟨claim_C6_default_reconciliation.1 ["a"] ["self", "x"] (by decide),
   claim_C6_default_reconciliation.2.1 [] "self" [] [] "a" ["b"] rfl
      (by intro p hp; simp at hp) (by decide) (by decide),
   claim_C6_default_reconciliation.2.2 ["type", "x"] ["cls"] (by decide)
      (by decide)⟩

/-! ## Claim C7: no self-inheritance from the same namespace -/

/-- Claim C7: during base resolution a base whose resolved type name
equals the class's own resolved type name and whose required imports
contain the current namespace contributes nothing, so no emitted class
lists itself as a base on account of a same-namespace base. -/
theorem claim_C7_no_self_inheritance :
    ∀ (tn : String) (inM : String) (ni0 : List String)
      (pre post : List PyTypeInfo) (b : PyTypeInfo),
      (get_typename b (some inM)).2 = tn →
      inM ∈ (get_typename b (some inM)).1 →
      resolve_bases tn (some inM) ni0 (pre ++ b :: post)
        = resolve_bases tn (some inM) ni0 (pre ++ post) := by
  intro tn inM ni0 pre post b hname hmem
  rw [resolve_bases, resolve_bases, List.foldl_append, List.foldl_append,
    List.foldl_cons]
  congr 1
  show (if (get_typename b (some inM)).2 = "" then _
        else if (get_typename b (some inM)).2 = tn
            ∧ moduleMem (some inM) (get_typename b (some inM)).1 = true then _
        else _) = _
  by_cases hemp : (get_typename b (some inM)).2 = ""
  · rw [if_pos hemp]
  · rw [if_neg hemp, if_pos ⟨hname, by simp [moduleMem, hmem]⟩]

/-- Claim C7 witness: a class `C` in module `m` with bases `C` (from `m`)
and `B`; the self base is dropped. -/
theorem claim_C7_witness :
    resolve_bases "C" (some "m") ["m"]
        [⟨"C", some "m"⟩, ⟨"B", some "m"⟩]
      = resolve_bases "C" (some "m") ["m"] [⟨"B", some "m"⟩] :=
  claim_C7_no_self_inheritance "C" "m" ["m"] [] [⟨"B", some "m"⟩]
    ⟨"C", some "m"⟩ (by decide) (by decide)

/-! ## Claim C3: knowledge-base lookup precedence -/

theorem knownStep_none_true {α : Type} (truthy : α → Bool)
    (tbl : List (String × α)) (k : String) :
    knownStep truthy none true tbl k = dictGet tbl k := by
  simp [knownStep]

theorem knownStep_false {α : Type} (truthy : α → Bool) (cur : Option α)
    (tbl : List (String × α)) (k : String) :
    knownStep truthy cur false tbl k = cur := by
  simp [knownStep]

theorem knownStep_truthy {α : Type} (truthy : α → Bool) (v : α)
    (h : truthy v = true) (b : Bool) (tbl : List (String × α)) (k : String) :
    knownStep truthy (some v) b tbl k = some v := by
  simp [knownStep, h]

theorem knownStep_falsy {α : Type} (truthy : α → Bool) (v : α)
    (h : truthy v = false) (tbl : List (String × α)) (k : String) :
    knownStep truthy (some v) true tbl k = dictGet tbl k := by
  simp [knownStep, h]

/-- The lookup cascade equals the first lookup, among the guarded
candidates in order, whose stored value is truthy. -/
theorem known_lookup_eq {α : Type} (truthy : α → Bool)
    (tbl : List (String × α)) (name : String) (scope aliasO : Option String) :
    known_lookup truthy tbl name scope aliasO =
      firstTruthyLookup truthy
        [if truthyO aliasO then dictGet tbl ((aliasO.getD "") ++ "." ++ name)
         else none,
         if truthyO scope then dictGet tbl ((scope.getD "") ++ "." ++ name)
         else none,
         dictGet tbl name] := by
  cases hg : truthyO aliasO <;> cases hs : truthyO scope <;>
    simp only [known_lookup, hg, hs, knownStep_false, knownStep_none_true,
      firstTruthyLookup, List.findSome?, if_true, if_false]
  case false.false =>
    rcases h3 : dictGet tbl name with _ | v3 <;> simp [h3] <;>
          (try (rcases htv3 : truthy v3 with _ | _ <;> simp [htv3]))
  case false.true =>
    rcases h2 : dictGet tbl ((scope.getD "") ++ "." ++ name) with _ | v2
    · simp only [h2, knownStep_none_true]
      rcases h3 : dictGet tbl name with _ | v3 <;> simp [h3] <;>
          (try (rcases htv3 : truthy v3 with _ | _ <;> simp [htv3]))
    · rcases htv2 : truthy v2 with _ | _
      · simp only [h2, knownStep, htv2, Bool.not_false, Bool.and_self,
          if_true]
        rcases h3 : dictGet tbl name with _ | v3 <;> simp [h3, htv2] <;>
          (try (rcases htv3 : truthy v3 with _ | _ <;> simp [htv3]))
      · simp only [h2, knownStep, htv2, Bool.not_true, Bool.and_false,
          if_false]
        simp [htv2]
  case true.false =>
    rcases h1 : dictGet tbl ((aliasO.getD "") ++ "." ++ name) with _ | v1
    · simp only [h1, knownStep_false, knownStep_none_true]
      rcases h3 : dictGet tbl name with _ | v3 <;> simp [h3] <;>
          (try (rcases htv3 : truthy v3 with _ | _ <;> simp [htv3]))
    · rcases htv1 : truthy v1 with _ | _
      · simp only [h1, knownStep, htv1, Bool.not_false, Bool.and_self,
          Bool.false_and, if_true, if_false]
        rcases h3 : dictGet tbl name with _ | v3 <;> simp [h3, htv1] <;>
          (try (rcases htv3 : truthy v3 with _ | _ <;> simp [htv3]))
      · simp only [h1, knownStep, htv1, Bool.not_true, Bool.and_false,
          Bool.false_and, if_false]
        simp [htv1]
  case true.true =>
    rcases h1 : dictGet tbl ((aliasO.getD "") ++ "." ++ name) with _ | v1
    · simp only [h1, knownStep_none_true]
      rcases h2 : dictGet tbl ((scope.getD "") ++ "." ++ name) with _ | v2
      · simp only [h2, knownStep_none_true]
        rcases h3 : dictGet tbl name with _ | v3 <;> simp [h3] <;>
          (try (rcases htv3 : truthy v3 with _ | _ <;> simp [htv3]))
      · rcases htv2 : truthy v2 with _ | _
        · simp only [h2, knownStep, htv2, Bool.not_false, Bool.and_self,
            if_true]
          rcases h3 : dictGet tbl name with _ | v3 <;> simp [h3, htv2] <;>
          (try (rcases htv3 : truthy v3 with _ | _ <;> simp [htv3]))
        · simp only [h2, knownStep, htv2, Bool.not_true, Bool.and_false,
            if_false]
          simp [htv2]
    · rcases htv1 : truthy v1 with _ | _
      · simp only [h1, knownStep, htv1, Bool.not_false, Bool.and_self,
          if_true]
        rcases h2 : dictGet tbl ((scope.getD "") ++ "." ++ name) with _ | v2
        · simp only [h2, knownStep_none_true]
          rcases h3 : dictGet tbl name with _ | v3 <;> simp [h3, htv1] <;>
          (try (rcases htv3 : truthy v3 with _ | _ <;> simp [htv3]))
        · rcases htv2 : truthy v2 with _ | _
          · simp only [h2, knownStep, htv2, Bool.not_false, Bool.and_self,
              if_true]
            rcases h3 : dictGet tbl name with _ | v3 <;>
              simp [h3, htv1, htv2] <;>
              rcases htv3 : truthy v3 with _ | _ <;> simp [htv3]
          · simp only [h2, knownStep, htv2, Bool.not_true, Bool.and_false,
              if_false]
            simp [htv1, htv2]
      · simp only [h1, knownStep, htv1, Bool.not_true, Bool.and_false,
          if_false]
        simp [htv1]

/-- Claim C3 counterexample: the restype table holds the entry
`__init__` with the empty-string value; the entry is present, yet the
lookup yields no result, so a present entry does not always win. -/
theorem claim_C3_counterexample :
    dictGet KNOWN_RESTYPES "__init__" = some (KVal.s "")
  ∧ init_restype_fromknown KNOWN_RESTYPES "__init__" none none = none :=
  ⟨rfl, rfl⟩

/-- Claim C3 amended: both tables are consulted with precedence
alias-qualified, scope-qualified, bare, but the first entry with a
truthy (non-empty, non-null) value wins; a present falsy entry is
skipped exactly like an absent one, and no truthy hit anywhere yields no
result rather than an error.  In particular a truthy alias-qualified
entry wins over any bare entry. -/
theorem claim_C3_amended :
    (∀ tbl name scope aliasO,
        init_argspec_fromknown tbl name scope aliasO =
          (firstTruthyLookup (fun v => v ≠ "")
            [if truthyO aliasO then
               dictGet tbl ((aliasO.getD "") ++ "." ++ name) else none,
             if truthyO scope then
               dictGet tbl ((scope.getD "") ++ "." ++ name) else none,
             dictGet tbl name]).map (fun sp => name ++ sp))
  ∧ (∀ tbl name scope aliasO,
        init_restype_fromknown tbl name scope aliasO =
          (firstTruthyLookup KVal.truthy
            [if truthyO aliasO then
               dictGet tbl ((aliasO.getD "") ++ "." ++ name) else none,
             if truthyO scope then
               dictGet tbl ((scope.getD "") ++ "." ++ name) else none,
             dictGet tbl name]).map (fun r =>
              match r with
              | .s v => "return " ++ v
              | .l vs => "return " ++ String.intercalate "; return " vs))
  ∧ (∀ (tbl : List (String × String)) name scope aliasO v,
        truthyO aliasO = true →
        dictGet tbl ((aliasO.getD "") ++ "." ++ name) = some v → v ≠ "" →
        init_argspec_fromknown tbl name scope aliasO = some (name ++ v)) := by
  refine ⟨?_, ?_, ?_⟩
  · intro tbl name scope aliasO
    rw [init_argspec_fromknown, known_lookup_eq]
  · intro tbl name scope aliasO
    rw [init_restype_fromknown, known_lookup_eq]
  · intro tbl name scope aliasO v hg h1 hv
    rw [init_argspec_fromknown, known_lookup_eq, firstTruthyLookup]
    rw [if_pos hg, h1]
    simp [List.findSome?, hv]

/-- Claim C3 witness: the alias-qualified argspec entry wins over the
bare entry in a two-entry table. -/
theorem claim_C3_witness :
    init_argspec_fromknown [("A.m", "(self, x)"), ("m", "(y)")] "m"
        none (some "A") = some "m(self, x)" :=
  claim_C3_amended.2.2 [("A.m", "(self, x)"), ("m", "(y)")] "m" none
    (some "A") "(self, x)" (by decide) (by decide) (by decide)

/-! ## Claim C5: Any/Unknown return collapse -/

/-- Claim C5 counterexample: the knowledge-base restype entry `Any` for
the bare `__call__` protocol name yields the final restype `return Any`,
not the no-op placeholder `pass` (the rendered value carries the
`return ` prefix, so the literal `Any`/`Unknown` collapse of line 266
never fires on it). -/
theorem claim_C5_counterexample :
    signature_restype KNOWN_RESTYPES false "__call__" none none
      = "return Any"
  ∧ signature_restype KNOWN_RESTYPES false "__call__" none none ≠ "pass" :=
  ⟨rfl, by decide⟩

/-- Claim C5 amended: the final restype is `pass` when native signature
introspection succeeds, and also when every restype resolution step
misses; a knowledge-base entry whose value is the string `Any` (such as
the bare `__call__` and `__next__` entries) instead produces the final
restype `return Any`, because knowledge-base results are rendered with a
`return ` prefix and the literal `Any`/`Unknown` collapse does not apply
to them. -/
theorem claim_C5_amended :
    (∀ tbl name aliasO, signature_restype tbl true name none aliasO = "pass")
  ∧ (∀ (tbl : List (String × KVal)) name,
        init_restype_fromknown tbl name none none = none →
        signature_restype tbl false name none none = "pass")
  ∧ (∀ (tbl : List (String × KVal)) name,
        dictGet tbl name = some (KVal.s "Any") →
        signature_restype tbl false name none none = "return Any") := by
  refine ⟨?_, ?_, ?_⟩
  · intro tbl name aliasO
    rfl
  · intro tbl name h
    have hres : restype_resolved tbl false name none none = "pass" := by
      rw [restype_resolved,
        show init_restype_fromsignature false = none from rfl, h]
      rfl
    rw [signature_restype, hres]
    rfl
  · intro tbl name h
    have hk : init_restype_fromknown tbl name none none
        = some "return Any" := by
      rw [init_restype_fromknown, known_lookup_eq]
      rw [show truthyO none = false from rfl]
      simp only [if_false, firstTruthyLookup, List.findSome?, h]
      rfl
    have hres : restype_resolved tbl false name none none
        = "return Any" := by
      rw [restype_resolved,
        show init_restype_fromsignature false = none from rfl, hk]
      rfl
    rw [signature_restype, hres]
    rfl

/-- Claim C5 witness: concrete instances (successful introspection, a
total miss, and the `__next__` entry of the real table). -/
theorem claim_C5_witness :
    signature_restype KNOWN_RESTYPES true "__call__" none none = "pass"
  ∧ signature_restype KNOWN_RESTYPES false "nosuchname" none none = "pass"
  ∧ signature_restype KNOWN_RESTYPES false "__next__" none none
      = "return Any" :=
  ⟨claim_C5_amended.1 KNOWN_RESTYPES "__call__" none,
   claim_C5_amended.2.1 KNOWN_RESTYPES "nosuchname" rfl,
   claim_C5_amended.2.2 KNOWN_RESTYPES "__next__" rfl⟩

/-! ## Claim C4: native signature introspection -/

/-- Claim C4 counterexample: a callable with full native signature
metadata (a positional-only `a` and a `b` with a non-literal default)
and an argspec; the resolver returns the argspec-derived text, not the
normalized native-signature text, because the call to
`_init_argspec_fromsignature` is commented out of the chain (line 251).
-/
theorem claim_C4_counterexample :
    signature_fullsig "f" none [] [] none true false
        (some [⟨"a", PKind.posOnly, none⟩,
               ⟨"b", PKind.posOrKw, some ("<object repr>", false)⟩])
        (some ⟨["a", "b"], none, none⟩) (fun _ => none) none none
      = "f(a, b)"
  ∧ init_argspec_fromsignature
        (some [⟨"a", PKind.posOnly, none⟩,
               ⟨"b", PKind.posOrKw, some ("<object repr>", false)⟩]) "f"
      = some "f(a, b=None)"
  ∧ ("f(a, b)" : String) ≠ "f(a, b=None)" :=
  ⟨rfl, rfl, by decide⟩

/-- Claim C4 amended: `_init_argspec_fromsignature` exists and performs
the documented normalizations (a positional-only parameter renders
exactly as a positional-or-keyword one; a default that is not
literal-evaluable renders as `None`), but its invocation in
`Signature.__init__` is commented out, so the resolved signature is
independent of the native signature metadata and the chain proceeds
directly to the lower-fidelity argspec extraction. -/
theorem claim_C4_amended :
    (∀ name scope dec d0 mdoc hc hg s1 s2 aO P ownDoc sal,
        signature_fullsig name scope dec d0 mdoc hc hg s1 aO P ownDoc sal
          = signature_fullsig name scope dec d0 mdoc hc hg s2 aO P ownDoc sal)
  ∧ (∀ (ps1 : List SParam) (n : String) (d : Option (String × Bool))
        (ps2 : List SParam) (name : String),
        init_argspec_fromsignature
            (some (ps1 ++ ⟨n, PKind.posOnly, d⟩ :: ps2)) name
          = init_argspec_fromsignature
            (some (ps1 ++ ⟨n, PKind.posOrKw, d⟩ :: ps2)) name)
  ∧ (∀ (ps1 : List SParam) (n : String) (k : PKind) (r : String)
        (ps2 : List SParam) (name : String),
        init_argspec_fromsignature
            (some (ps1 ++ ⟨n, k, some (r, false)⟩ :: ps2)) name
          = init_argspec_fromsignature
            (some (ps1 ++ ⟨n, k, some ("None", true)⟩ :: ps2)) name) := by
  refine ⟨?_, ?_, ?_⟩
  · intro name scope dec d0 mdoc hc hg s1 s2 aO P ownDoc sal
    rfl
  · intro ps1 n d ps2 name
    have hp : normalizeParam ⟨n, PKind.posOnly, d⟩
        = normalizeParam ⟨n, PKind.posOrKw, d⟩ := by
      rcases d with _ | ⟨r, b⟩
      · rfl
      · rcases b with _ | _ <;> rfl
    simp only [init_argspec_fromsignature, Option.map_some', List.map_append,
      List.map_cons, hp]
  · intro ps1 n k r ps2 name
    have hp : normalizeParam ⟨n, k, some (r, false)⟩
        = normalizeParam ⟨n, k, some ("None", true)⟩ := by
      rcases k with _ | _ | _ | _ | _ <;> rfl
    simp only [init_argspec_fromsignature, Option.map_some', List.map_append,
      List.map_cons, hp]

/-! ## Claim C2: the docstring repair chain -/

/-- Claim C2: signature resolution from documentation text first
extracts the first balanced parenthesized call from the start of the
text, then tries exactly five candidates in order — the text as is, the
text with square brackets stripped, the bracket-stripped text with a
leading `Owner.method(` rewritten to `method(self : Owner, `, the same
rewritten to `method(self, `, and the bracket-stripped text with inline
`=value` default assignments removed — accepting the first that parses
as a function header passing the name check; a parsed header whose name
mismatches (when mismatches are not allowed) is rejected with a warning,
never accepted. -/
theorem claim_C2_repair_chain :
    (∀ (P : String → Option PyFunDef) (allow : Bool) (name d : String),
        docstring_select P allow name d =
          (get_first_function_call d).bind (fun g =>
            [g,
             strip_square_brackets g,
             rewrite_self_typed (strip_square_brackets g),
             rewrite_self (strip_square_brackets g),
             strip_default_assignments (strip_square_brackets g)].findSome?
              (fun e => parse_funcdef P e allow name)))
  ∧ (∀ (P : String → Option PyFunDef) (expr : String) (node : PyFunDef)
        (name : String),
        P expr = some node → node.fname ≠ name →
        parse_funcdef P expr false name = none) := by
  constructor
  · intro P allow name d
    rcases hg : get_first_function_call d with _ | g
    · rw [docstring_select, hg]
      rfl
    · rw [docstring_select, hg]
      simp only [Option.some_bind, List.findSome?]
      rcases hp1 : parse_funcdef P g allow name with _ | c1 <;>
        simp only [hp1] <;> try rfl
      rcases hp2 : parse_funcdef P (strip_square_brackets g) allow name
          with _ | c2 <;> simp only [hp2] <;> try rfl
      rcases hp3 : parse_funcdef P (rewrite_self_typed
          (strip_square_brackets g)) allow name with _ | c3 <;>
        simp only [hp3] <;> try rfl
      rcases hp4 : parse_funcdef P (rewrite_self
          (strip_square_brackets g)) allow name with _ | c4 <;>
        simp only [hp4] <;> try rfl
      rcases hp5 : parse_funcdef P (strip_default_assignments
          (strip_square_brackets g)) allow name with _ | c5 <;> simp [hp5]
  · intro P expr node name hP hne
    simp only [parse_funcdef, hP]
    rw [if_neg]
    rintro (h | h)
    · exact Bool.false_ne_true h
    · exact hne h

/-- Claim C2 witness: a docstring whose bracket-stripped form parses
(the second repair is the accepted one), and a name-mismatched header
that is rejected. -/
theorem claim_C2_witness :
    docstring_select
        (fun s => if s = "f(a, b)" then some ⟨"f", ["a", "b"]⟩ else none)
        false "f" "f(a[, b]) -> int" =
      [("f(a[, b])" : String), "f(a, b)", "f(a, b)", "f(a, b)",
       "f(a, b)"].findSome?
        (fun e => parse_funcdef
          (fun s => if s = "f(a, b)" then some ⟨"f", ["a", "b"]⟩ else none)
          e false "f")
  ∧ parse_funcdef
      (fun s => if s = "g(a)" then some ⟨"g", ["a"]⟩ else none)
      "g(a)" false "f" = none :=
  ⟨by
    have h := claim_C2_repair_chain.1
      (fun s => if s = "f(a, b)" then some ⟨"f", ["a", "b"]⟩ else none)
      false "f" "f(a[, b]) -> int"
    rw [h]
    rfl,
   claim_C2_repair_chain.2
    (fun s => if s = "g(a)" then some ⟨"g", ["a"]⟩ else none)
    "g(a)" ⟨"g", ["a"]⟩ "f" (by rfl) (by decide)⟩

/-! ## Claim C9: name collision handling -/

/-- Claim C9 counterexample: a container already holding a member named
`x` whose `dir` enumeration yields `x` again: the second occurrence is
skipped entirely (line 835), not renamed to `x2`; only one entry
remains. -/
theorem claim_C9_counterexample :
    (collect_members
        [MInfo.mk "x" (some "1") none none [] [] none none false "" false []]
        [] ["x"] "m"
        (fun _ => some
          (MInfo.mk "x" (some "2") none none [] [] none none false "" false []))
        (fun _ => true) (fun _ => false)).map MInfo.name = ["x"]
  ∧ (["x"] : List String) ≠ ["x", "x2"] :=
  ⟨rfl, by decide⟩

/-- Claim C9 amended: parameter names within one signature are
deterministically suffixed on collision (`x`, `x2`, `x3`, ...) and all
occurrences remain present as distinct entries; sibling members of a
container, by contrast, are not renamed: a name already present among
the members at loop entry is skipped, leaving only the first entry. -/
theorem claim_C9_amended :
    (∀ (seen : List String) (a : String), a ∈ seen → (a ++ "2") ∉ seen →
        ast_arg_rename seen a = a ++ "2")
  ∧ (∀ a : String, paramNamesRender [a, a, a] [] = [a, a ++ "2", a ++ "3"])
  ∧ (∀ (existing : List String) (substitutes : List (String × Option MInfo))
        (modScope : String) (attrs : String → Option MInfo)
        (shouldAdd mroHas : String → Bool) (members : List MInfo)
        (name : String),
        isPyKeyword name = false →
        dictGet substitutes name = none →
        dictGet substitutes (modScope ++ "." ++ name) = none →
        name ∈ existing →
        collect_step existing substitutes modScope attrs shouldAdd mroHas
          members name = members) := by
  have hstep : ∀ (seen : List String) (base : String) (fuel i : Nat),
      freshSuffixGo seen base (fuel + 1) i =
        if (base ++ toString i) ∈ seen then freshSuffixGo seen base fuel (i + 1)
        else base ++ toString i := fun _ _ _ _ => rfl
  have hts2 : (toString (2 : Nat)) = "2" := rfl
  have hts3 : (toString (3 : Nat)) = "3" := rfl
  have hlen2 : ∀ a : String, a ++ "2" ≠ a := by
    intro a h
    have h2 := congrArg String.length h
    rw [String.length_append, show ("2" : String).length = 1 from rfl] at h2
    omega
  have hlen3 : ∀ a : String, a ++ "3" ≠ a := by
    intro a h
    have h2 := congrArg String.length h
    rw [String.length_append, show ("3" : String).length = 1 from rfl] at h2
    omega
  have h32 : ∀ a : String, a ++ "3" ≠ a ++ "2" := by
    intro a h
    have h2 := congrArg String.data h
    rw [String.data_append, String.data_append] at h2
    have h3 := List.append_cancel_left h2
    exact absurd h3 (by decide)
  have hp1 : ∀ (seen : List String) (a : String), a ∈ seen →
      (a ++ "2") ∉ seen → ast_arg_rename seen a = a ++ "2" := by
    intro seen a hmem hnot
    rw [ast_arg_rename, if_pos hmem, hstep, hts2, if_neg hnot]
  refine ⟨hp1, ?_, ?_⟩
  · intro a
    have e1 : ast_arg_rename [] a = a := by
      rw [ast_arg_rename, if_neg (List.not_mem_nil a)]
    have e2 : ast_arg_rename [a] a = a ++ "2" :=
      hp1 [a] a (List.mem_singleton.mpr rfl)
        (fun h => hlen2 a (List.mem_singleton.mp h))
    have e3 : ast_arg_rename [a ++ "2", a] a = a ++ "3" := by
      rw [ast_arg_rename, if_pos (by simp), hstep, hts2,
        if_pos (by simp)]
      rw [show ([a ++ "2", a] : List String).length = 1 + 1 from rfl, hstep,
        hts3]
      rw [if_neg (by
        intro h
        rcases List.mem_cons.mp h with h | h
        · exact h32 a h
        · exact hlen3 a (List.mem_singleton.mp h))]
    simp only [paramNamesRender]
    rw [e1, e2, e3]
  · intro existing substitutes modScope attrs shouldAdd mroHas members name
      hkw h1 h2 hmem
    simp only [collect_step, hkw, Bool.false_eq_true, if_false, h1, h2]
    rw [if_pos hmem]

/-- Claim C9 witness: concrete instances of the three parts. -/
theorem claim_C9_witness :
    ast_arg_rename ["x"] "x" = "x2"
  ∧ paramNamesRender ["y", "y", "y"] [] = ["y", "y2", "y3"]
  ∧ collect_step ["x"] [] "m" (fun _ => none) (fun _ => true)
      (fun _ => false) [] "x" = [] :=
  ⟨claim_C9_amended.1 ["x"] "x" (by decide) (by decide),
   claim_C9_amended.2.1 "y",
   claim_C9_amended.2.2 ["x"] [] "m" (fun _ => none) (fun _ => true)
     (fun _ => false) [] "x" rfl rfl rfl (by decide)⟩

/-! ## Claim C8: the lies-about-module exception set -/

/-- Claim C8: a type whose reported origin differs from the current
namespace but whose qualified name is in the lies set resolves to the
bare name attributed to the current namespace; and a member set whose
accumulated imports all equal the module's own name produces a dump with
no import lines at all, rendering entries exactly as local ones. -/
theorem claim_C8_lies_local :
    (∀ (t : PyTypeInfo) (m inM : String),
        t.tmodule = some m → m ≠ "" → m ≠ "<unknown>" → m ≠ inM →
        (m ++ "." ++ replaceDash t.tname) ∈ LIES_ABOUT_MODULE →
        get_typename t (some inM) = ([inM], replaceDash t.tname))
  ∧ (∀ (mn : String) (mems : List MInfo) (e : List String),
        importEnumSpec mems mn e →
        (∀ x ∈ collectImports mems, x = mn) →
        dumpText mn mems e =
          String.join (mems.map (fun v => MInfo.asStr "" v ++ "\n"))) := by
  constructor
  · intro t m inM ht hm1 hm2 hmne hlies
    simp only [get_typename, ht]
    rw [if_pos ⟨hm1, hm2⟩, if_neg (by simp [hmne]), if_pos hlies]
    rfl
  · intro mn mems e hspec hall
    have hf : (collectImports mems).filter (fun x => x ≠ mn) = [] := by
      rw [List.filter_eq_nil_iff]
      intro a ha
      simp [hall a ha]
    have he : e = [] := by
      refine (List.toFinset_eq_empty_iff e).mp ?_
      rw [hspec.2, hf]
      rfl
    rw [dumpText, he]
    simp

/-- Claim C8 witness: the `weakref` proxy type scanned from module
`mymod`, and a dump whose only required import is the module itself. -/
theorem claim_C8_witness :
    get_typename ⟨"weakref", some "builtins"⟩ (some "mymod")
      = (["mymod"], "weakref")
  ∧ dumpText "mymod"
      [MInfo.mk "W" none (some "weakref") none ["mymod"] [] none none
        true "" false []] [] =
      String.join
        ([MInfo.mk "W" none (some "weakref") none ["mymod"] [] none none
            true "" false []].map (fun v => MInfo.asStr "" v ++ "\n")) :=
  ⟨claim_C8_lies_local.1 ⟨"weakref", some "builtins"⟩ "builtins" "mymod"
    rfl (by decide) (by decide) (by decide) (by decide),
   claim_C8_lies_local.2 "mymod"
    [MInfo.mk "W" none (some "weakref") none ["mymod"] [] none none
      true "" false []] []
    ⟨List.nodup_nil, by decide⟩ (by decide)⟩

/-! ## Claim C1: determinism of the scan-and-dump pipeline -/

/-- Claim C1: for a fixed input namespace (fixed `dir` orders, fixed
introspection oracles), the full scan-and-dump pipeline is a pure
function of the namespace; its only run-order-sensitive ingredient, the
hash-set iteration order of the accumulated import set, is neutralized
by sorting, so any two runs — any two enumerations of that set — produce
byte-identical output text. -/
theorem claim_C1_pipeline_determinism :
    ∀ (M : ModuleModel) (excluded : List String) (e1 e2 : List String),
      importEnumSpec (pipeline_members M excluded) M.moduleName e1 →
      importEnumSpec (pipeline_members M excluded) M.moduleName e2 →
      full_pipeline M excluded e1 = full_pipeline M excluded e2 := by
  intro M excluded e1 e2 h1 h2
  exact dumpText_enum_invariant h1 h2

/-- Claim C1 witness: a one-member namespace whose entry needs the
imports `os` and `re`; the two runs enumerate the import set in opposite
orders and produce the same text. -/
theorem claim_C1_witness :
    full_pipeline
      (ModuleModel.mk "m" ["a"]
        (fun n => if n = "a" then
          some (MInfo.mk "a" none (some "a") (some "a") ["os", "re", "m"]
            [] none none true "" false [])
         else none)
        (fun _ => true) (fun _ => false)
        (fun _ => MInfo.mk "" none none none [] [] none none false "" false [])
        (fun _ => []) (fun _ _ => none) (fun _ _ => true) (fun _ _ => false))
      [] ["os", "re"]
    = full_pipeline
      (ModuleModel.mk "m" ["a"]
        (fun n => if n = "a" then
          some (MInfo.mk "a" none (some "a") (some "a") ["os", "re", "m"]
            [] none none true "" false [])
         else none)
        (fun _ => true) (fun _ => false)
        (fun _ => MInfo.mk "" none none none [] [] none none false "" false [])
        (fun _ => []) (fun _ _ => none) (fun _ _ => true) (fun _ _ => false))
      [] ["re", "os"] :=
  claim_C1_pipeline_determinism _ [] ["os", "re"] ["re", "os"]
    ⟨by decide, by decide⟩ ⟨by decide, by decide⟩
